import Mathlib

/-!
Verification development for the replay-parser repository.

The repository has two Python modules:
  * `replay_parser.py` — a single-pass, line-oriented parser turning a battle
    replay transcript into one structured game record;
  * `winrate_analyzer.py` — an aggregation engine grouping per-game records
    into best-of-N matches and computing win-rate slices.

This file shallowly embeds both modules.  Python string primitives
(`str.strip`, `str.split`, `str.startswith`, …) are modelled as executable
functions over the character list underlying a Lean `String`, so every
definition below evaluates by kernel reduction.  Python `None` goes to
`Option.none`, Python truthiness of strings and options is modelled at each
use site ("" and `None` are falsy), machine integers are `Int`/`Nat`
(no overflow is possible in the counting code), and float rounding in
`round(x, 4)` is idealized as exact rational rounding half-to-even.
-/

/-! ## Python string primitives -/

/-- Whitespace set of Python `str.strip` (space, tab, newline, carriage
return, vertical tab, form feed). -/
def pyIsSpace (c : Char) : Bool :=
  c = ' ' || c = '\t' || c = '\n' || c = '\r' || c = '\x0B' || c = '\x0C'

def pyStripList (cs : List Char) : List Char :=
  ((cs.dropWhile pyIsSpace).reverse.dropWhile pyIsSpace).reverse

/-- Python `s.strip()`. -/
def pyStrip (s : String) : String := String.mk (pyStripList s.toList)

/-- Split a character list on a single separator character; always returns at
least one chunk, like Python `str.split` with a separator argument. -/
def splitCharList (c : Char) : List Char → List (List Char)
  | [] => [[]]
  | x :: xs =>
    match splitCharList c xs with
    | [] => [[]]
    | h :: t => if x = c then [] :: h :: t else (x :: h) :: t

/-- Python `s.split(c)` for a one-character separator. -/
def pySplit (s : String) (c : Char) : List String :=
  (splitCharList c s.toList).map String.mk

/-- Python `s.split(c, 1)` for a one-character separator: at most one split,
at the first occurrence. -/
def pySplit1 (s : String) (c : Char) : List String :=
  let pre := s.toList.takeWhile (fun x => x ≠ c)
  let rest := s.toList.dropWhile (fun x => x ≠ c)
  match rest with
  | [] => [s]
  | _ :: after => [String.mk pre, String.mk after]

/-- Python `s.startswith(pre)`. -/
def pyStartsWith (s pre : String) : Bool := pre.toList.isPrefixOf s.toList

/-- Python `s.endswith(suf)`. -/
def pyEndsWith (s suf : String) : Bool := suf.toList.isSuffixOf s.toList

/-- Python `s.lstrip(",")`. -/
def pyLStripComma (s : String) : String :=
  String.mk (s.toList.dropWhile (fun c => c = ','))

/-- Python `s.lower()` (ASCII case folding; the repository only handles
ASCII species names). -/
def pyLower (s : String) : String := String.mk (s.toList.map Char.toLower)

/-- Python `sep.join(parts)` for a one-character separator. -/
def pyJoin (c : Char) (parts : List String) : String :=
  String.mk (List.intercalate [c] (parts.map String.toList))

/-- Python `text.splitlines()` for newline-separated input (the transcript
protocol is newline-separated; every line is stripped afterwards, which also
removes any carriage returns). -/
def pySplitLines (s : String) : List String := pySplit s '\n'

/-- Python `s or None` applied to a string: empty becomes `None`. -/
def strOrNone (s : String) : Option String :=
  if s = "" then none else some s

/-! ## replay_parser.py — helpers -/

namespace ReplayParser

/-- Dataclass `TeamPokemon` of `replay_parser.py`. -/
structure TeamPokemon where
  name : String
  item : Option String
  ability : Option String
  moves : List String
  tera_type : Option String
  deriving Repr, DecidableEq

/-- Function `_extract_player` of `replay_parser.py`. -/
def _extract_player (slot : String) : String :=
  let side := pyStrip ((pySplit1 slot ':').headD "")
  if pyStartsWith side "p1" then "p1"
  else if pyStartsWith side "p2" then "p2"
  else side

/-- Function `_extract_species_from_details` of `replay_parser.py`. -/
def _extract_species_from_details (details : String) : String :=
  pyStrip ((pySplit1 details ',').headD "")

/-- Function `_normalize_species` of `replay_parser.py`: strips a trailing
"-Tera" display suffix (five characters). -/
def _normalize_species (species : String) : String :=
  if pyEndsWith species "-Tera" then
    String.mk (species.toList.take (species.toList.length - 5))
  else species

/-- Function `_extract_nickname` of `replay_parser.py`: `None` when the slot
has no colon, otherwise the trimmed text after the first colon. -/
def _extract_nickname (slot : String) : Option String :=
  match pySplit1 slot ':' with
  | [_, after] => some (pyStrip after)
  | _ => none

/-- Body of the loop of `_parse_showteam`: the roster entry built from the
field list of one chunk. -/
def mkTeamMember (fields : List String) : TeamPokemon :=
  { name := pyStrip (fields.getD 0 "")
    item := strOrNone (pyStrip (fields.getD 2 ""))
    ability := strOrNone (pyStrip (fields.getD 3 ""))
    moves := ((pySplit (pyStrip (fields.getD 4 "")) ',').map pyStrip).filter
      (fun mv => mv ≠ "")
    tera_type := strOrNone (pyLStripComma (pyStrip (fields.getLastD ""))) }

/-- Function `_parse_showteam` of `replay_parser.py`: splits the payload on
"]" into chunks, drops chunks that are empty after stripping or yield fewer
than six "|"-separated fields, and builds one roster entry per kept chunk. -/
def _parse_showteam (raw : String) : List TeamPokemon :=
  (pySplit raw ']').foldl
    (fun team member_raw =>
      let m := pyStrip member_raw
      if m = "" then team
      else
        let fields := pySplit m '|'
        if fields.length < 6 then team
        else team ++ [mkTeamMember fields])
    []

/-! ## replay_parser.py — uhtml "bestof" regular expressions

`parse_replay_log` runs two `re.search` calls on the rejoined html payload of
a `|uhtml|bestof|…` line.  Both are modelled as explicit leftmost-match
scanners with the backtracking behaviour of the original patterns. -/

/-- Numeric value of a list of ASCII digits, as Python `int`. -/
def digitsToNat (ds : List Char) : Nat :=
  ds.foldl (fun n c => n * 10 + (c.toNat - 48)) 0

/-- Match attempt of the pattern `Game\s+(\d+)` anchored at the head of the
list: the literal "Game", one or more whitespace characters, then the
captured maximal run of digits. -/
def matchGameAt (cs : List Char) : Option Nat :=
  match cs with
  | 'G' :: 'a' :: 'm' :: 'e' :: rest =>
    let ws := rest.takeWhile pyIsSpace
    if ws.isEmpty then none
    else
      let ds := (rest.drop ws.length).takeWhile Char.isDigit
      if ds.isEmpty then none else some (digitsToNat ds)
  | _ => none

/-- Leftmost search of `re.search(r"Game\s+(\d+)", html)`, returning the
captured group as a number. -/
def searchGame : List Char → Option Nat
  | [] => none
  | c :: rest =>
    match matchGameAt (c :: rest) with
    | some n => some n
    | none => searchGame rest

def findGameNumber (html : String) : Option Nat := searchGame html.toList

/-- Tail of the best-of-3 id pattern: `-\d+(?:-[^"/]+)?"` anchored at the
head, returning the `-\d+` part that belongs to the captured group.  The
digit run is maximal (shorter runs cannot be followed by `-`, `"` or the
optional suffix), and the optional suffix `-[^"/]+` succeeds only when
immediately followed by the closing quote. -/
def matchTailBo3 (cs : List Char) : Option (List Char) :=
  match cs with
  | '-' :: cs1 =>
    let ds := cs1.takeWhile Char.isDigit
    if ds.isEmpty then none
    else
      let cap := '-' :: ds
      match cs1.drop ds.length with
      | '-' :: r =>
        let t := r.takeWhile (fun c => c ≠ '"' && c ≠ '/')
        if ¬ t.isEmpty ∧ (r.drop t.length).headD ' ' = '"' then some cap
        else none
      | '"' :: _ => some cap
      | _ => none
  | _ => none

/-- Lazy part `[^"]*?` of the captured group: try the tail match at the
current position first, else consume one non-quote character and retry. -/
def lazyBo3 : List Char → Option (List Char)
  | [] => none
  | c :: rest =>
    match matchTailBo3 (c :: rest) with
    | some cap => some cap
    | none => if c = '"' then none else (lazyBo3 rest).map (fun cap => c :: cap)

/-- Match attempt of `href="\\?/game-bestof3-([^"]*?-\d+)(?:-[^"/]+)?"`
anchored at the head of the list, returning the captured group. -/
def matchBo3At (cs : List Char) : Option (List Char) :=
  if "href=\"".toList.isPrefixOf cs then
    let cs1 := cs.drop 6
    let cs2 := match cs1 with
      | '\\' :: r => r
      | _ => cs1
    if "/game-bestof3-".toList.isPrefixOf cs2 then lazyBo3 (cs2.drop 14)
    else none
  else none

/-- Leftmost search for the best-of-3 id pattern. -/
def searchBo3 : List Char → Option (List Char)
  | [] => none
  | c :: rest =>
    match matchBo3At (c :: rest) with
    | some cap => some cap
    | none => searchBo3 rest

def findBo3Id (html : String) : Option String :=
  (searchBo3 html.toList).map String.mk

/-! ## replay_parser.py — parse_replay_log as a state machine -/

/-- Mutable local state of `parse_replay_log`, one instance per transcript.
The two nickname dictionaries are association lists; a new binding is
consed in front and `List.lookup` returns the most recent one
(last-write-wins, as for a Python dict). -/
structure ParseState where
  p1_username : Option String
  p2_username : Option String
  p1_team : List TeamPokemon
  p2_team : List TeamPokemon
  p1_leads : List String
  p2_leads : List String
  p1_back : List String
  p2_back : List String
  p1_tera : Option String
  p2_tera : Option String
  winner : Option Nat
  best_of_3_id : Option String
  best_of_3_game_number : Option Nat
  nick_p1 : List (String × String)
  nick_p2 : List (String × String)
  deriving Repr, DecidableEq

/-- Initial values of the local variables of `parse_replay_log`. -/
def initState : ParseState :=
  { p1_username := none, p2_username := none
    p1_team := [], p2_team := []
    p1_leads := [], p2_leads := [], p1_back := [], p2_back := []
    p1_tera := none, p2_tera := none
    winner := none, best_of_3_id := none, best_of_3_game_number := none
    nick_p1 := [], nick_p2 := [] }

/-- One per-player side of the record returned by `parse_replay_log`. -/
structure PlayerOut where
  username : Option String
  team : List TeamPokemon
  lead_pokemon : List String
  back_pokemon : List String
  terastalized_pokemon : Option String
  deriving Repr, DecidableEq

/-- The record returned by `parse_replay_log`. -/
structure ParsedGame where
  best_of_3_id : Option String
  best_of_3_game_number : Option Nat
  player1 : PlayerOut
  player2 : PlayerOut
  winning_player : Option Nat
  deriving Repr, DecidableEq

/-- Handler of the `player` event (reached with at least 5 fields): binds a
side slot to a non-empty username; an empty username changes nothing. -/
def handlePlayer (st : ParseState) (parts : List String) : ParseState :=
  let slot := pyStrip (parts.getD 2 "")
  let username := pyStrip (parts.getD 3 "")
  if username = "" then st
  else if slot = "p1" then { st with p1_username := some username }
  else if slot = "p2" then { st with p2_username := some username }
  else st

/-- Handler of the `uhtml` event (reached with at least 4 fields): on block
id "bestof", scans the rejoined html payload for the game number and the
best-of-3 id. -/
def handleUhtml (st : ParseState) (parts : List String) : ParseState :=
  let block_id := pyStrip (parts.getD 2 "")
  if block_id ≠ "bestof" then st
  else
    let html := pyJoin '|' (parts.drop 3)
    let st1 := match findGameNumber html with
      | some n => { st with best_of_3_game_number := some n }
      | none => st
    match findBo3Id html with
    | some i => { st1 with best_of_3_id := some i }
    | none => st1

/-- Handler of the `showteam` event (reached with at least 4 fields). -/
def handleShowteam (st : ParseState) (parts : List String) : ParseState :=
  let slot := pyStrip (parts.getD 2 "")
  let payload := pyJoin '|' (parts.drop 3)
  let parsed_team := _parse_showteam payload
  if slot = "p1" then { st with p1_team := parsed_team }
  else if slot = "p2" then { st with p2_team := parsed_team }
  else st

/-- First-seen lead/bench classification applied to one species entering
play, exactly as the `switch` branch of `parse_replay_log` does for either
player: a lead while fewer than two leads are recorded and the species is
not already a lead, otherwise appended to the bench unless already present
on either list. -/
def classify (leads back : List String) (species : String) :
    List String × List String :=
  if species ∉ leads ∧ leads.length < 2 then (leads ++ [species], back)
  else if species ∉ leads ∧ species ∉ back then (leads, back ++ [species])
  else (leads, back)

/-- Nickname-binding update shared by the `switch` and `detailschange`
branches: when a non-empty nickname is present and the player is a known
side, record nickname → species. -/
def bindNickname (st : ParseState) (player : String)
    (nickname : Option String) (species : String) : ParseState :=
  match nickname with
  | some n =>
    if n ≠ "" then
      if player = "p1" then { st with nick_p1 := (n, species) :: st.nick_p1 }
      else if player = "p2" then
        { st with nick_p2 := (n, species) :: st.nick_p2 }
      else st
    else st
  | none => st

/-- Handler of the `switch` event (reached with at least 4 fields). -/
def handleSwitch (st : ParseState) (parts : List String) : ParseState :=
  let slot := pyStrip (parts.getD 2 "")
  let details := pyStrip (parts.getD 3 "")
  let species := _normalize_species (_extract_species_from_details details)
  let player := _extract_player slot
  let nickname := _extract_nickname slot
  let st1 := bindNickname st player nickname species
  if player = "p1" then
    { st1 with
      p1_leads := (classify st1.p1_leads st1.p1_back species).1
      p1_back := (classify st1.p1_leads st1.p1_back species).2 }
  else if player = "p2" then
    { st1 with
      p2_leads := (classify st1.p2_leads st1.p2_back species).1
      p2_back := (classify st1.p2_leads st1.p2_back species).2 }
  else st1

/-- Handler of the `detailschange` event (reached with at least 4 fields):
same extraction as `switch` but only the nickname binding is updated. -/
def handleDetailschange (st : ParseState) (parts : List String) : ParseState :=
  let slot := pyStrip (parts.getD 2 "")
  let details := pyStrip (parts.getD 3 "")
  let species := _normalize_species (_extract_species_from_details details)
  let player := _extract_player slot
  let nickname := _extract_nickname slot
  bindNickname st player nickname species

/-- Handler of the `-terastallize` event (reached with at least 3 fields):
`species = nickname_to_species.get(player, {}).get(nickname or "", nickname)`
then assignment to the side's tera field. -/
def handleTera (st : ParseState) (parts : List String) : ParseState :=
  let slot := pyStrip (parts.getD 2 "")
  let nickname := _extract_nickname slot
  let player := _extract_player slot
  let dict := if player = "p1" then st.nick_p1
    else if player = "p2" then st.nick_p2
    else []
  let species : Option String :=
    match List.lookup (nickname.getD "") dict with
    | some sp => some sp
    | none => nickname
  if player = "p1" then { st with p1_tera := species }
  else if player = "p2" then { st with p2_tera := species }
  else st

/-- Handler of the `win` event (reached with at least 3 fields): Python
`if p1_username and winner_name == p1_username` and the `p2` analogue;
`p1_username` is truthy when bound and non-empty. -/
def handleWin (st : ParseState) (parts : List String) : ParseState :=
  let winner_name := pyStrip (parts.getD 2 "")
  if st.p1_username.getD "" ≠ "" ∧ st.p1_username = some winner_name then
    { st with winner := some 1 }
  else if st.p2_username.getD "" ≠ "" ∧ st.p2_username = some winner_name then
    { st with winner := some 2 }
  else st

/-- Event dispatch of the loop body of `parse_replay_log`: the `elif` chain
over the event tag, each arm guarded by its minimal field count; an
unrecognized tag or a failed field-count guard leaves the state unchanged. -/
def dispatch (st : ParseState) (parts : List String) : ParseState :=
  let event := parts.getD 1 ""
  if event = "player" then
    (if 5 ≤ parts.length then handlePlayer st parts else st)
  else if event = "uhtml" then
    (if 4 ≤ parts.length then handleUhtml st parts else st)
  else if event = "showteam" then
    (if 4 ≤ parts.length then handleShowteam st parts else st)
  else if event = "switch" then
    (if 4 ≤ parts.length then handleSwitch st parts else st)
  else if event = "detailschange" then
    (if 4 ≤ parts.length then handleDetailschange st parts else st)
  else if event = "-terastallize" then
    (if 3 ≤ parts.length then handleTera st parts else st)
  else if event = "win" then
    (if 3 ≤ parts.length then handleWin st parts else st)
  else st

/-- One iteration of the loop of `parse_replay_log`: strip the line, skip it
unless it starts with "|" and splits into at least two fields, then
dispatch on the event tag. -/
def step (st : ParseState) (raw : String) : ParseState :=
  let line := pyStrip raw
  if line = "" then st
  else if pyStartsWith line "|" = false then st
  else
    let parts := pySplit line '|'
    if parts.length < 2 then st
    else dispatch st parts

/-- The whole loop of `parse_replay_log` over a list of lines. -/
def parseLines (ls : List String) : ParseState := ls.foldl step initState

/-- The record literal returned at the end of `parse_replay_log`. -/
def finalize (st : ParseState) : ParsedGame :=
  { best_of_3_id := st.best_of_3_id
    best_of_3_game_number := st.best_of_3_game_number
    player1 :=
      { username := st.p1_username, team := st.p1_team
        lead_pokemon := st.p1_leads, back_pokemon := st.p1_back
        terastalized_pokemon := st.p1_tera }
    player2 :=
      { username := st.p2_username, team := st.p2_team
        lead_pokemon := st.p2_leads, back_pokemon := st.p2_back
        terastalized_pokemon := st.p2_tera }
    winning_player := st.winner }

/-- Record produced for a list of protocol lines. -/
def parseLinesRecord (ls : List String) : ParsedGame := finalize (parseLines ls)

/-- Function `parse_replay_log` of `replay_parser.py`. -/
def parse_replay_log (log_text : String) : ParsedGame :=
  parseLinesRecord (pySplitLines log_text)

end ReplayParser

/-! ## winrate_analyzer.py -/

namespace WinrateAnalyzer

open ReplayParser (ParsedGame PlayerOut TeamPokemon)

/-- Dataclass `GameRecord` of `winrate_analyzer.py` (one aggregate record
per loaded file for the target player). -/
structure GameRecord where
  source_file : String
  best_of_3_id : Option String
  best_of_3_game_number : Option Nat
  did_win : Bool
  self_team : List String
  opponent_team : List String
  self_leads : List String
  self_back : List String
  self_tera : Option String
  deriving Repr, DecidableEq

/-- Shape of the dictionary returned by `_to_rate`. -/
structure RateBucket where
  wins : Int
  losses : Int
  total : Int
  winrate : Option ℚ
  deriving Repr, DecidableEq

/-- Rounding half to even of a rational number, the idealization of Python
`round` applied to the quotient `wins / total`. -/
def roundHalfEven (q : ℚ) : ℤ :=
  let f : ℤ := ⌊q⌋
  let r : ℚ := q - f
  if r < 1 / 2 then f
  else if 1 / 2 < r then f + 1
  else if f % 2 = 0 then f else f + 1

/-- Python `round(q, 4)` idealized over the rationals. -/
def pyRound4 (q : ℚ) : ℚ := (roundHalfEven (q * 10000) : ℚ) / 10000

/-- Function `_to_rate` of `winrate_analyzer.py`. -/
def _to_rate (wins total : Int) : RateBucket :=
  { wins := wins
    losses := total - wins
    total := total
    winrate := if total ≠ 0 then some (pyRound4 ((wins : ℚ) / (total : ℚ)))
      else none }

/-- Function `_identify_sides` of `winrate_analyzer.py`: the loaded JSON
payload is the record emitted by `parse_replay_log`. -/
def _identify_sides (game : ParsedGame) (target_player : String) :
    Option (PlayerOut × PlayerOut × Bool) :=
  if game.player1.username = some target_player then
    some (game.player1, game.player2, game.winning_player == some 1)
  else if game.player2.username = some target_player then
    some (game.player2, game.player1, game.winning_player == some 2)
  else none

/-- Function `load_games` of `winrate_analyzer.py`; the file system is
abstracted as the list of (path, parsed JSON payload) pairs the glob
produced. -/
def load_games (files : List (String × ParsedGame)) (target_player : String) :
    List GameRecord :=
  files.foldl
    (fun games pp =>
      match _identify_sides pp.2 target_player with
      | none => games
      | some (self_side, opponent_side, did_win) =>
        games ++
          [{ source_file := pp.1
             best_of_3_id := pp.2.best_of_3_id
             best_of_3_game_number := pp.2.best_of_3_game_number
             did_win := did_win
             self_team := (self_side.team.map (fun m => m.name)).filter
               (fun n => n ≠ "")
             opponent_team := (opponent_side.team.map (fun m => m.name)).filter
               (fun n => n ≠ "")
             self_leads := self_side.lead_pokemon
             self_back := self_side.back_pokemon
             self_tera := self_side.terastalized_pokemon }])
    []

/-- Function `compute_overall_game_winrate` of `winrate_analyzer.py`. -/
def compute_overall_game_winrate (games : List GameRecord) : RateBucket :=
  _to_rate ((games.filter (fun g => g.did_win)).length : Int)
    (games.length : Int)

/-- Appending one record to the group of its key inside the ordered
association list that models the `defaultdict(list)` of `_group_bo3`;
a fresh key is appended at the end, as Python dict insertion order does. -/
def insertGroup (acc : List (String × List GameRecord)) (k : String)
    (g : GameRecord) : List (String × List GameRecord) :=
  match acc with
  | [] => [(k, [g])]
  | (k1, l) :: rest =>
    if k1 = k then (k1, l ++ [g]) :: rest else (k1, l) :: insertGroup rest k g

/-- Loop body of `_group_bo3`: `if game.best_of_3_id:` keeps only records
whose id is truthy (neither `None` nor the empty string), appending them to
the group of their id. -/
def groupStep (acc : List (String × List GameRecord)) (g : GameRecord) :
    List (String × List GameRecord) :=
  if g.best_of_3_id.getD "" ≠ "" then
    insertGroup acc (g.best_of_3_id.getD "") g
  else acc

/-- Function `_group_bo3` of `winrate_analyzer.py`. -/
def _group_bo3 (games : List GameRecord) : List (String × List GameRecord) :=
  games.foldl groupStep []

/-- The list of records grouped under a key (empty when the key is absent),
i.e. Python `grouped[k]` for reading. -/
def groupLookup : List (String × List GameRecord) → String → List GameRecord
  | [], _ => []
  | e :: rest, k => if e.1 = k then e.2 else groupLookup rest k

/-- Function `_bo3_winner` of `winrate_analyzer.py`. -/
def _bo3_winner (games_in_match : List GameRecord) : Option Bool :=
  let wins := (games_in_match.filter (fun g => g.did_win)).length
  let losses := games_in_match.length - wins
  if wins > losses then some true
  else if losses > wins then some false
  else none

/-- Shape of the summary returned by `compute_overall_bo3_winrate`. -/
structure Bo3Summary where
  rate : RateBucket
  undecided_matches : Nat
  deriving Repr, DecidableEq

/-- Function `compute_overall_bo3_winrate` of `winrate_analyzer.py`: the
loop over `grouped.values()` collecting decided outcomes and counting
undecided matches is expressed over the ordered group list. -/
def compute_overall_bo3_winrate (games : List GameRecord) : Bo3Summary :=
  let grouped := _group_bo3 games
  let results := grouped.map (fun kv => _bo3_winner kv.2)
  let decided : List Bool := results.filterMap id
  let undecided_count := (results.filter (fun r => r = none)).length
  let wins := (decided.filter (fun r => r)).length
  { rate := _to_rate (wins : Int) (decided.length : Int)
    undecided_matches := undecided_count }

/-- Shape of the summary returned by `compute_bo3_vs_opponent_set_winrate`. -/
structure Bo3VsSummary where
  rate : RateBucket
  required_opponent_pokemon : List String
  matching_best_of_3 : Nat
  undecided_matches : Nat
  deriving Repr, DecidableEq

/-- Qualification test of one match group: some record of the group has an
opponent roster whose lower-cased name set contains every required
lower-cased name (`required.issubset(...)` in the source). -/
def groupQualifies (required : List String) (match_games : List GameRecord) :
    Bool :=
  match_games.any
    (fun g => required.all (fun r => (g.opponent_team.map pyLower).contains r))

/-- Function `compute_bo3_vs_opponent_set_winrate` of `winrate_analyzer.py`. -/
def compute_bo3_vs_opponent_set_winrate (games : List GameRecord)
    (required_opponent_pokemon : List String) : Bo3VsSummary :=
  let required := required_opponent_pokemon.map pyLower
  let grouped := _group_bo3 games
  let filtered := grouped.filter (fun kv => groupQualifies required kv.2)
  let results := filtered.map (fun kv => _bo3_winner kv.2)
  let decided : List Bool := results.filterMap id
  let undecided_count := (results.filter (fun r => r = none)).length
  let wins := (decided.filter (fun r => r)).length
  { rate := _to_rate (wins : Int) (decided.length : Int)
    required_opponent_pokemon := required_opponent_pokemon
    matching_best_of_3 := filtered.length
    undecided_matches := undecided_count }

end WinrateAnalyzer

/-! ## Theorems -/

open ReplayParser WinrateAnalyzer

/-! ### C4 — WinRateBucket invariant -/

/-- C4: every WinRateBucket produced by `_to_rate` from integers with
0 ≤ wins ≤ total satisfies wins + losses = total, and its winrate is
undefined (none) exactly when total = 0. -/
theorem winrate_bucket_invariant (wins total : Int)
    (h0 : 0 ≤ wins) (h1 : wins ≤ total) :
    (_to_rate wins total).wins + (_to_rate wins total).losses
        = (_to_rate wins total).total
      ∧ ((_to_rate wins total).winrate = none
        ↔ (_to_rate wins total).total = 0) := by
  refine ⟨by simp [_to_rate], ?_⟩
  simp only [_to_rate]
  split_ifs with h <;> simp_all

/-- Witness for C4 at wins = 2, total = 3. -/
theorem winrate_bucket_invariant_witness :
    (0 : Int) ≤ 2 ∧ (2 : Int) ≤ 3 ∧
      ((_to_rate 2 3).wins + (_to_rate 2 3).losses = (_to_rate 2 3).total
        ∧ ((_to_rate 2 3).winrate = none ↔ (_to_rate 2 3).total = 0)) :=
  ⟨by decide, by decide, winrate_bucket_invariant 2 3 (by decide) (by decide)⟩

/-! ### C10 — a game with no recorded winner is aggregated as a loss -/

/-- C10: when the target player matches one side's username but
winning_player is undefined, `load_games` still emits one AggregateRecord
for the file, and its did_win is false (counted as a loss downstream). -/
theorem no_winner_aggregates_as_loss (path : String) (payload : ParsedGame)
    (target : String)
    (hmatch : payload.player1.username = some target
      ∨ payload.player2.username = some target)
    (hnowin : payload.winning_player = none) :
    (load_games [(path, payload)] target).length = 1
      ∧ ∀ r ∈ load_games [(path, payload)] target, r.did_win = false := by
  rcases hmatch with h | h
  · simp [load_games, _identify_sides, h, hnowin]
  · by_cases h1 : payload.player1.username = some target
    · simp [load_games, _identify_sides, h1, hnowin]
    · simp [load_games, _identify_sides, h1, h, hnowin]

/-- Concrete payload with player1 "Alice", player2 "Bob" and no recorded
winner, used by the C10 witness. -/
def noWinnerPayload : ParsedGame where
  best_of_3_id := none
  best_of_3_game_number := none
  player1 :=
    { username := some "Alice", team := [], lead_pokemon := []
      back_pokemon := [], terastalized_pokemon := none }
  player2 :=
    { username := some "Bob", team := [], lead_pokemon := []
      back_pokemon := [], terastalized_pokemon := none }
  winning_player := none

/-- Witness for C10: concrete payload whose player1 is "Alice" and whose
winner is undefined. -/
theorem no_winner_aggregates_as_loss_witness :
    ((load_games [("g1.json", noWinnerPayload)] "Alice").length = 1)
      ∧ ∀ r ∈ load_games [("g1.json", noWinnerPayload)] "Alice",
          r.did_win = false :=
  no_winner_aggregates_as_loss "g1.json" noWinnerPayload "Alice"
    (Or.inl rfl) rfl

/-! ### C3 — grouping by match id

The source guard `if game.best_of_3_id:` relies on Python truthiness, so a
record whose match id is the *empty string* (a defined value) is also left
out of every group.  The claim as stated ("no other value of match_id
causes exclusion") is therefore false; the lemmas below establish the
corrected version. -/

/-- Record with a defined but empty match id, excluded by `_group_bo3`. -/
def emptyIdRecord : GameRecord where
  source_file := "game1.json"
  best_of_3_id := some ""
  best_of_3_game_number := none
  did_win := true
  self_team := []
  opponent_team := []
  self_leads := []
  self_back := []
  self_tera := none

/-- Counterexample to C3 as stated: `emptyIdRecord` has a defined
match id, yet `_group_bo3` puts it in no group at all. -/
theorem group_bo3_defined_id_excluded_counterexample :
    emptyIdRecord.best_of_3_id ≠ none ∧ _group_bo3 [emptyIdRecord] = [] := by
  exact ⟨by simp [emptyIdRecord], rfl⟩

/-- Reading a key after `insertGroup` on the same key appends the record. -/
theorem groupLookup_insertGroup_self (acc : List (String × List GameRecord))
    (k : String) (g : GameRecord) :
    groupLookup (insertGroup acc k g) k = groupLookup acc k ++ [g] := by
  induction acc with
  | nil => simp [insertGroup, groupLookup]
  | cons e rest ih =>
    obtain ⟨k1, l⟩ := e
    by_cases h : k1 = k
    · simp [insertGroup, groupLookup, h]
    · simp [insertGroup, groupLookup, h, ih]

/-- Reading a different key after `insertGroup` is unchanged. -/
theorem groupLookup_insertGroup_other (acc : List (String × List GameRecord))
    (k k2 : String) (g : GameRecord) (hne : k2 ≠ k) :
    groupLookup (insertGroup acc k g) k2 = groupLookup acc k2 := by
  induction acc with
  | nil => simp [insertGroup, groupLookup, Ne.symm hne]
  | cons e rest ih =>
    obtain ⟨k1, l⟩ := e
    by_cases h : k1 = k
    · subst h
      simp [insertGroup, groupLookup, Ne.symm hne]
    · simp [insertGroup, groupLookup, h, ih]

/-- Case analysis lemmas for one `groupStep` iteration. -/
theorem groupStep_untruthy (acc : List (String × List GameRecord))
    (g : GameRecord) (h : g.best_of_3_id = none ∨ g.best_of_3_id = some "") :
    groupStep acc g = acc := by
  rcases h with h | h <;> simp [groupStep, h]

theorem groupStep_truthy (acc : List (String × List GameRecord))
    (g : GameRecord) (s : String) (h : g.best_of_3_id = some s)
    (hs : s ≠ "") : groupStep acc g = insertGroup acc s g := by
  simp [groupStep, h, hs]

/-- The members of group `k` after the whole `_group_bo3` fold are the
records of the input with match id `some k`, in input order (for any
non-empty key `k`). -/
theorem groupLookup_group_fold (gs : List GameRecord) :
    ∀ acc (k : String), k ≠ "" →
      groupLookup (gs.foldl groupStep acc) k
        = groupLookup acc k
            ++ gs.filter (fun g => g.best_of_3_id = some k) := by
  induction gs with
  | nil => intro acc k _; simp
  | cons g rest ih =>
    intro acc k hk
    rw [List.foldl_cons]
    cases hidc : g.best_of_3_id with
    | none =>
      rw [groupStep_untruthy acc g (Or.inl hidc), ih _ k hk]
      have : g.best_of_3_id ≠ some k := by simp [hidc]
      simp [List.filter_cons, this]
    | some s =>
      by_cases hs : s = ""
      · subst hs
        rw [groupStep_untruthy acc g (Or.inr hidc), ih _ k hk]
        have : g.best_of_3_id ≠ some k := by simp [hidc, Ne.symm hk]
        simp [List.filter_cons, this]
      · rw [groupStep_truthy acc g s hidc hs, ih _ k hk]
        by_cases hsk : s = k
        · rw [hsk] at hidc
          rw [hsk, groupLookup_insertGroup_self]
          simp [List.filter_cons, hidc]
        · rw [groupLookup_insertGroup_other _ _ _ _ (Ne.symm hsk)]
          have hne2 : g.best_of_3_id ≠ some k := by simp [hidc, hsk]
          simp [List.filter_cons, hne2]

/-- Every record stored in any group built by the `_group_bo3` fold has a
truthy (defined, non-empty) match id. -/
theorem group_fold_members_truthy (gs : List GameRecord) :
    ∀ acc,
      (∀ e ∈ acc, ∀ g1 ∈ e.2, g1.best_of_3_id.getD "" ≠ "") →
      ∀ e ∈ gs.foldl groupStep acc, ∀ g1 ∈ e.2,
        g1.best_of_3_id.getD "" ≠ "" := by
  have hins : ∀ (acc : List (String × List GameRecord)) k g,
      (∀ e ∈ acc, ∀ g1 ∈ e.2, g1.best_of_3_id.getD "" ≠ "") →
      g.best_of_3_id.getD "" ≠ "" →
      ∀ e ∈ insertGroup acc k g, ∀ g1 ∈ e.2,
        g1.best_of_3_id.getD "" ≠ "" := by
    intro acc k g hacc hg
    induction acc with
    | nil =>
      intro e he g1 hg1
      simp [insertGroup] at he
      subst he
      simp at hg1
      subst hg1; exact hg
    | cons e0 rest ih =>
      obtain ⟨k1, l⟩ := e0
      by_cases h : k1 = k
      · intro e he g1 hg1
        simp only [insertGroup, h, if_true] at he
        rcases List.mem_cons.mp he with he | he
        · subst he
          rcases List.mem_append.mp hg1 with h1 | h1
          · exact hacc (k1, l) (List.mem_cons_self _ _) g1 h1
          · simp at h1; subst h1; exact hg
        · exact hacc e (List.mem_cons_of_mem _ he) g1 hg1
      · intro e he g1 hg1
        simp only [insertGroup, h, if_false] at he
        rcases List.mem_cons.mp he with he | he
        · subst he
          exact hacc (k1, l) (List.mem_cons_self _ _) g1 hg1
        · exact ih (fun e2 he2 => hacc e2 (List.mem_cons_of_mem _ he2)) e he
            g1 hg1
  induction gs with
  | nil => intro acc hacc; exact hacc
  | cons g rest ih =>
    intro acc hacc
    rw [List.foldl_cons]
    by_cases hg : g.best_of_3_id.getD "" ≠ ""
    · have : groupStep acc g = insertGroup acc (g.best_of_3_id.getD "") g := by
        simp [groupStep, hg]
      rw [this]
      exact ih _ (hins acc _ g hacc hg)
    · have : groupStep acc g = acc := by
        simp [groupStep] at hg ⊢
        simp [hg]
      rw [this]
      exact ih _ hacc

/-- Membership in a group read by key implies membership in some group. -/
theorem mem_of_mem_groupLookup (groups : List (String × List GameRecord))
    (k : String) (g : GameRecord) (h : g ∈ groupLookup groups k) :
    ∃ e ∈ groups, g ∈ e.2 := by
  induction groups with
  | nil => simp [groupLookup] at h
  | cons e rest ih =>
    by_cases he : e.1 = k
    · rw [groupLookup, if_pos he] at h
      exact ⟨e, List.mem_cons_self _ _, h⟩
    · rw [groupLookup, if_neg he] at h
      obtain ⟨e1, he1, hg1⟩ := ih h
      exact ⟨e1, List.mem_cons_of_mem _ he1, hg1⟩

/-- C3 (amended): the group read under any non-empty key `k` consists of
exactly the records whose match id is `some k`, in input order; and a
record of the input participates in no group if and only if its match id
is undefined *or the empty string* (Python truthiness of the guard
`if game.best_of_3_id:`). -/
theorem group_bo3_grouping_amended (games : List GameRecord) (k : String)
    (hk : k ≠ "") :
    groupLookup (_group_bo3 games) k
        = games.filter (fun g => g.best_of_3_id = some k)
      ∧ ∀ g ∈ games,
          (∀ e ∈ _group_bo3 games, g ∉ e.2)
            ↔ (g.best_of_3_id = none ∨ g.best_of_3_id = some "") := by
  constructor
  · have h := groupLookup_group_fold games [] k hk
    simpa [groupLookup] using h
  · intro g hg
    constructor
    · intro hnot
      by_contra hid
      push_neg at hid
      obtain ⟨h1, h2⟩ := hid
      obtain ⟨s, hs⟩ : ∃ s, g.best_of_3_id = some s := by
        cases h : g.best_of_3_id with
        | none => exact absurd h h1
        | some s => exact ⟨s, rfl⟩
      have hsne : s ≠ "" := by
        intro h; rw [h] at hs; exact h2 hs
      have hmem : g ∈ groupLookup (_group_bo3 games) s := by
        have h := groupLookup_group_fold games [] s hsne
        simp only [_group_bo3]
        rw [h]
        simp [groupLookup, List.mem_filter, hg, hs]
      obtain ⟨e, he, hge⟩ := mem_of_mem_groupLookup _ _ _ hmem
      exact hnot e he hge
    · intro hid e he hge
      have := group_fold_members_truthy games [] (by simp) e he g hge
      rcases hid with h | h <;> simp [h] at this

/-- Witness for C3 (amended) at one record with match id "m1". -/
def matchIdRecord : GameRecord where
  source_file := "game2.json"
  best_of_3_id := some "m1"
  best_of_3_game_number := some 1
  did_win := false
  self_team := []
  opponent_team := []
  self_leads := []
  self_back := []
  self_tera := none

/-- Witness for C3 (amended): the single group under key "m1". -/
theorem group_bo3_grouping_amended_witness :
    groupLookup (_group_bo3 [matchIdRecord]) "m1"
      = [matchIdRecord].filter (fun g => g.best_of_3_id = some "m1") :=
  (group_bo3_grouping_amended [matchIdRecord] "m1" (by decide)).1

/-! ### C2 — best-of-N match resolution by strict majority -/

/-- Length of `filterMap id` over options counts the defined entries. -/
theorem length_filterMap_id {α : Type} (l : List (Option α)) :
    (l.filterMap id).length = (l.filter (fun o => o.isSome)).length := by
  induction l with
  | nil => rfl
  | cons h t ih => cases h <;> simp [ih]

/-- Counting the `true` entries among the defined ones. -/
theorem length_filter_true_filterMap (l : List (Option Bool)) :
    ((l.filterMap id).filter (fun b => b)).length
      = (l.filter (fun o => o == some true)).length := by
  induction l with
  | nil => rfl
  | cons h t ih =>
    rcases h with _ | b
    · simpa using ih
    · cases b <;> simp [ih]

/-- Filter after mapping the per-group outcome. -/
theorem length_filter_map_outcome (l : List (String × List GameRecord))
    (p : Option Bool → Bool) :
    ((l.map (fun kv => _bo3_winner kv.2)).filter p).length
      = (l.filter (fun kv => p (_bo3_winner kv.2))).length := by
  induction l with
  | nil => rfl
  | cons h t ih =>
    by_cases hp : p (_bo3_winner h.2) <;> simp [hp, ih]

/-- C2: a non-empty best-of-N group resolves to a win exactly when strictly
more than half of its records have did_win, to a loss exactly when strictly
fewer than half do, and to undecided exactly on a tie; and in
`compute_overall_bo3_winrate` the ratio denominator counts only decided
groups, the wins numerator counts the groups resolved to a win, and
undecided groups are counted separately. -/
theorem bo3_majority_resolution (gs games : List GameRecord) (hne : gs ≠ []) :
    (_bo3_winner gs = some true
        ↔ gs.length < 2 * (gs.filter (fun g => g.did_win)).length)
      ∧ (_bo3_winner gs = some false
        ↔ 2 * (gs.filter (fun g => g.did_win)).length < gs.length)
      ∧ (_bo3_winner gs = none
        ↔ 2 * (gs.filter (fun g => g.did_win)).length = gs.length)
      ∧ (compute_overall_bo3_winrate games).rate.total
        = (((_group_bo3 games).filter
            (fun kv => (_bo3_winner kv.2).isSome)).length : Int)
      ∧ (compute_overall_bo3_winrate games).rate.wins
        = (((_group_bo3 games).filter
            (fun kv => _bo3_winner kv.2 == some true)).length : Int)
      ∧ (compute_overall_bo3_winrate games).undecided_matches
        = ((_group_bo3 games).filter
            (fun kv => _bo3_winner kv.2 = none)).length := by
  have hle : (gs.filter (fun g => g.did_win)).length ≤ gs.length :=
    List.length_filter_le _ _
  refine ⟨?_, ?_, ?_, ?_, ?_, ?_⟩
  · simp only [_bo3_winner]
    split_ifs with h1 h2 <;> simp <;> omega
  · simp only [_bo3_winner]
    split_ifs with h1 h2 <;> simp <;> omega
  · simp only [_bo3_winner]
    split_ifs with h1 h2 <;> simp <;> omega
  · simp only [compute_overall_bo3_winrate, _to_rate]
    rw [length_filterMap_id, length_filter_map_outcome]
  · simp only [compute_overall_bo3_winrate, _to_rate]
    rw [length_filter_true_filterMap, length_filter_map_outcome]
  · simp only [compute_overall_bo3_winrate, _to_rate]
    rw [length_filter_map_outcome]

/-- Records with fixed game outcomes, for the C2 witness. -/
def bo3WinRec : GameRecord where
  source_file := "w.json"
  best_of_3_id := some "m"
  best_of_3_game_number := none
  did_win := true
  self_team := []
  opponent_team := []
  self_leads := []
  self_back := []
  self_tera := none

def bo3LossRec : GameRecord where
  source_file := "l.json"
  best_of_3_id := some "m"
  best_of_3_game_number := none
  did_win := false
  self_team := []
  opponent_team := []
  self_leads := []
  self_back := []
  self_tera := none

/-- Witness for C2: [win, loss] is undecided, [win, win, loss] resolves to
a win, [loss, loss, win] resolves to a loss. -/
theorem bo3_majority_resolution_witness :
    _bo3_winner [bo3WinRec, bo3LossRec] = none
      ∧ _bo3_winner [bo3WinRec, bo3WinRec, bo3LossRec] = some true
      ∧ _bo3_winner [bo3LossRec, bo3LossRec, bo3WinRec] = some false :=
  ⟨(bo3_majority_resolution [bo3WinRec, bo3LossRec] [] (by simp)).2.2.1.mpr
      (by decide),
    (bo3_majority_resolution [bo3WinRec, bo3WinRec, bo3LossRec] []
      (by simp)).1.mpr (by decide),
    (bo3_majority_resolution [bo3LossRec, bo3LossRec, bo3WinRec] []
      (by simp)).2.1.mpr (by decide)⟩

/-! ### C8 — conditional best-of-N win rate vs a required opponent set -/

/-- The boolean qualification test agrees with its set-theoretic reading:
some record of the group has an opponent roster that is a case-insensitive
superset of the required names. -/
theorem groupQualifies_iff (req : List String) (l : List GameRecord) :
    groupQualifies (req.map pyLower) l = true
      ↔ ∃ g ∈ l, ∀ r ∈ req, ∃ n ∈ g.opponent_team, pyLower n = pyLower r := by
  simp only [groupQualifies, List.any_eq_true, List.all_eq_true,
    List.elem_iff, List.mem_map]
  constructor
  · rintro ⟨g, hg, hall⟩
    refine ⟨g, hg, fun r hr => ?_⟩
    obtain ⟨n, hn, heq⟩ := hall (pyLower r) ⟨r, hr, rfl⟩
    exact ⟨n, hn, heq⟩
  · rintro ⟨g, hg, hall⟩
    refine ⟨g, hg, ?_⟩
    rintro lr ⟨r, hr, rfl⟩
    obtain ⟨n, hn, heq⟩ := hall r hr
    exact ⟨n, hn, heq⟩

/-- Record whose opponent roster contains Pikachu, in match "m1". -/
def pikachuOpponentRec : GameRecord where
  source_file := "p.json"
  best_of_3_id := some "m1"
  best_of_3_game_number := none
  did_win := true
  self_team := []
  opponent_team := ["Pikachu", "Mew"]
  self_leads := []
  self_back := []
  self_tera := none

/-- Record whose opponent roster lacks Pikachu, in match "m2". -/
def noPikachuOpponentRec : GameRecord where
  source_file := "q.json"
  best_of_3_id := some "m2"
  best_of_3_game_number := none
  did_win := false
  self_team := []
  opponent_team := ["Mew", "Snorlax"]
  self_leads := []
  self_back := []
  self_tera := none

/-- C8: a match group qualifies for the conditional best-of-N rate exactly
when some record of the group has an opponent roster that is a
case-insensitive superset of the required set; matching_best_of_3 counts
the qualifying groups, and the win-rate fields are computed over the
qualifying groups only, by the same majority rule.  At the end, the
two-group example of the specification: only the group containing a
Pikachu game qualifies for the required set ["Pikachu"]. -/
theorem bo3_conditional_winrate_qualification (games : List GameRecord)
    (req : List String) :
    ((compute_bo3_vs_opponent_set_winrate games req).matching_best_of_3
        = ((_group_bo3 games).filter
            (fun kv => decide (∃ g ∈ kv.2, ∀ r ∈ req,
              ∃ n ∈ g.opponent_team, pyLower n = pyLower r))).length)
      ∧ ((compute_bo3_vs_opponent_set_winrate games req).rate.total
        = ((((_group_bo3 games).filter
            (fun kv => decide (∃ g ∈ kv.2, ∀ r ∈ req,
              ∃ n ∈ g.opponent_team, pyLower n = pyLower r))).filter
            (fun kv => (_bo3_winner kv.2).isSome)).length : Int))
      ∧ ((compute_bo3_vs_opponent_set_winrate games req).rate.wins
        = ((((_group_bo3 games).filter
            (fun kv => decide (∃ g ∈ kv.2, ∀ r ∈ req,
              ∃ n ∈ g.opponent_team, pyLower n = pyLower r))).filter
            (fun kv => _bo3_winner kv.2 == some true)).length : Int))
      ∧ ((compute_bo3_vs_opponent_set_winrate games req).undecided_matches
        = (((_group_bo3 games).filter
            (fun kv => decide (∃ g ∈ kv.2, ∀ r ∈ req,
              ∃ n ∈ g.opponent_team, pyLower n = pyLower r))).filter
            (fun kv => _bo3_winner kv.2 = none)).length)
      ∧ (compute_bo3_vs_opponent_set_winrate
          [pikachuOpponentRec, noPikachuOpponentRec]
          ["Pikachu"]).matching_best_of_3 = 1 := by
  have hfil : (_group_bo3 games).filter
        (fun kv => groupQualifies (req.map pyLower) kv.2)
      = (_group_bo3 games).filter
        (fun kv => decide (∃ g ∈ kv.2, ∀ r ∈ req,
          ∃ n ∈ g.opponent_team, pyLower n = pyLower r)) := by
    apply List.filter_congr
    intro kv _
    rw [Bool.eq_iff_iff, decide_eq_true_eq]
    exact groupQualifies_iff req kv.2
  refine ⟨?_, ?_, ?_, ?_, by rfl⟩
  · simp only [compute_bo3_vs_opponent_set_winrate]
    rw [hfil]
  · simp only [compute_bo3_vs_opponent_set_winrate, _to_rate]
    rw [length_filterMap_id, length_filter_map_outcome, hfil]
  · simp only [compute_bo3_vs_opponent_set_winrate, _to_rate]
    rw [length_filter_true_filterMap, length_filter_map_outcome, hfil]
  · simp only [compute_bo3_vs_opponent_set_winrate, _to_rate]
    rw [length_filter_map_outcome, hfil]

/-! ### C7 — team roster decoding -/

/-- The `_parse_showteam` loop is a filter-then-map over the chunks: one
entry per chunk that is non-empty after stripping and splits into at least
six fields, in chunk order. -/
theorem parse_showteam_fold (chunks : List String) :
    ∀ acc : List TeamPokemon,
      chunks.foldl
          (fun team member_raw =>
            let m := pyStrip member_raw
            if m = "" then team
            else
              let fields := pySplit m '|'
              if fields.length < 6 then team
              else team ++ [mkTeamMember fields])
          acc
        = acc
            ++ (chunks.filter
                (fun c => pyStrip c ≠ "" ∧ 6 ≤ (pySplit (pyStrip c) '|').length)).map
              (fun c => mkTeamMember (pySplit (pyStrip c) '|')) := by
  induction chunks with
  | nil => intro acc; simp
  | cons c rest ih =>
    intro acc
    rw [List.foldl_cons]
    by_cases h1 : pyStrip c = ""
    · have hp : ¬(pyStrip c ≠ "" ∧ 6 ≤ (pySplit (pyStrip c) '|').length) := by
        simp [h1]
      simp only [h1, if_pos rfl, List.filter_cons, ih]
      simp [hp]
    · by_cases h2 : (pySplit (pyStrip c) '|').length < 6
      · have hp : ¬(pyStrip c ≠ "" ∧ 6 ≤ (pySplit (pyStrip c) '|').length) := by
          simp [h1]; omega
        simp only [h1, if_neg h1, if_pos h2, List.filter_cons, ih]
        simp [hp]
      · have hp : pyStrip c ≠ "" ∧ 6 ≤ (pySplit (pyStrip c) '|').length :=
          ⟨h1, by omega⟩
        simp only [if_neg h1, if_neg h2, List.filter_cons, ih]
        simp [hp]

/-- A value built by `strOrNone` is never `some ""`. -/
theorem strOrNone_ne_some_empty (s : String) : strOrNone s ≠ some "" := by
  unfold strOrNone
  split_ifs with h <;> simp_all

/-- C7: the roster decoder emits exactly one entry per chunk that is
non-empty after stripping and splits into at least six fields, in chunk
order; dropped chunks produce nothing; and in every emitted entry an
absent item or ability is `none` (and never the empty string). -/
theorem showteam_roster_entries (raw : String) :
    (_parse_showteam raw
        = ((pySplit raw ']').filter
            (fun c => pyStrip c ≠ "" ∧ 6 ≤ (pySplit (pyStrip c) '|').length)).map
          (fun c => mkTeamMember (pySplit (pyStrip c) '|')))
      ∧ (∀ e ∈ _parse_showteam raw, e.item ≠ some "" ∧ e.ability ≠ some "")
      ∧ (∀ fields : List String,
          (pyStrip (fields.getD 2 "") = "" → (mkTeamMember fields).item = none)
            ∧ (pyStrip (fields.getD 3 "") = ""
              → (mkTeamMember fields).ability = none)) := by
  refine ⟨by rw [_parse_showteam, parse_showteam_fold]; simp, ?_, ?_⟩
  · intro e he
    rw [_parse_showteam, parse_showteam_fold] at he
    simp only [List.nil_append, List.mem_map] at he
    obtain ⟨c, _, rfl⟩ := he
    exact ⟨strOrNone_ne_some_empty _, strOrNone_ne_some_empty _⟩
  · intro fields
    constructor
    · intro h
      have h2 : pyStrip (fields[2]?.getD "") = "" := by
        simpa [List.getD] using h
      simp [mkTeamMember, strOrNone, h2]
    · intro h
      have h2 : pyStrip (fields[3]?.getD "") = "" := by
        simpa [List.getD] using h
      simp [mkTeamMember, strOrNone, h2]

/-- Witness for C7: a chunk with an empty item field yields an entry with
item and ability undefined rather than empty. -/
theorem showteam_roster_entries_witness :
    (pyStrip ((["Mew", "", "", "", "Pound", "", ",Psychic"].getD 2 "")) = ""
        → (mkTeamMember ["Mew", "", "", "", "Pound", "", ",Psychic"]).item
          = none)
      ∧ ((mkTeamMember ["Mew", "", "", "", "Pound", "", ",Psychic"]).item
          = none) :=
  ⟨((showteam_roster_entries "").2.2
      ["Mew", "", "", "", "Pound", "", ",Psychic"]).1,
    ((showteam_roster_entries "").2.2
      ["Mew", "", "", "", "Pound", "", ",Psychic"]).1 (by rfl)⟩

/-! ### C1 — first-seen lead/bench classification -/

/-- The classification fold of one player over the in-order sequence of
species extracted from that player's `switch` events, starting from the
empty lead and bench lists of `parse_replay_log`. -/
def switchFold (ss : List String) : List String × List String :=
  ss.foldl (fun lb s => classify lb.1 lb.2 s) ([], [])

/-- The sequence of first occurrences of a list, in first-seen order. -/
def firstSeen : List String → List String
  | [] => []
  | s :: rest => s :: (firstSeen rest).filter (fun x => x ≠ s)

/-- Membership in `firstSeen` agrees with membership in the list. -/
theorem mem_firstSeen (s : String) (l : List String) :
    s ∈ firstSeen l ↔ s ∈ l := by
  induction l with
  | nil => simp [firstSeen]
  | cons x rest ih =>
    simp only [firstSeen, List.mem_cons, List.mem_filter, ih]
    constructor
    · rintro (h | ⟨h, _⟩)
      · exact Or.inl h
      · exact Or.inr h
    · rintro (h | h)
      · exact Or.inl h
      · by_cases hx : s = x
        · exact Or.inl hx
        · exact Or.inr ⟨h, by simpa using hx⟩

/-- Appending one element extends `firstSeen` exactly when it is new. -/
theorem firstSeen_append_singleton (l : List String) (s : String) :
    firstSeen (l ++ [s])
      = if s ∈ l then firstSeen l else firstSeen l ++ [s] := by
  induction l with
  | nil => simp [firstSeen]
  | cons x rest ih =>
    by_cases hs : s ∈ rest
    · have hmem : s ∈ x :: rest := List.mem_cons_of_mem _ hs
      rw [List.cons_append, firstSeen, ih, if_pos hs, if_pos hmem, firstSeen]
    · by_cases hx : s = x
      · have hmem : s ∈ x :: rest := by simp [hx]
        rw [List.cons_append, firstSeen, ih, if_neg hs, if_pos hmem, firstSeen]
        rw [List.filter_append]
        subst hx
        simp
      · have hmem : s ∉ x :: rest := by simp [hx, hs]
        rw [List.cons_append, firstSeen, ih, if_neg hs, if_neg hmem, firstSeen]
        rw [List.filter_append]
        simp [hx]

/-- The classification fold computes the first two distinct species seen as
leads and all later distinct species as bench. -/
theorem switchFold_firstSeen (ss : List String) :
    switchFold ss = ((firstSeen ss).take 2, (firstSeen ss).drop 2) := by
  induction ss using List.reverseRecOn with
  | nil => rfl
  | append_singleton ss s ih =>
    rw [switchFold, List.foldl_append, List.foldl_cons, List.foldl_nil]
    rw [show List.foldl (fun lb s => classify lb.1 lb.2 s) ([], []) ss
      = switchFold ss from rfl, ih]
    rw [firstSeen_append_singleton]
    by_cases hmem : s ∈ ss
    · rw [if_pos hmem]
      have hsF : s ∈ firstSeen ss := (mem_firstSeen s ss).mpr hmem
      simp only [classify]
      split_ifs with h1 h2
      · exfalso
        obtain ⟨hnt, hlt⟩ := h1
        have hd : s ∈ (firstSeen ss).drop 2 := by
          have hsplit := List.take_append_drop 2 (firstSeen ss)
          rw [← hsplit] at hsF
          rcases List.mem_append.mp hsF with h | h
          · exact absurd h hnt
          · exact h
        have hlen : 2 ≤ (firstSeen ss).length := by
          by_contra hlt2
          push_neg at hlt2
          rw [List.drop_eq_nil_of_le (by omega)] at hd
          simp at hd
        rw [List.length_take] at hlt
        omega
      · exfalso
        obtain ⟨hnt, hnd⟩ := h2
        have hsplit := List.take_append_drop 2 (firstSeen ss)
        rw [← hsplit] at hsF
        rcases List.mem_append.mp hsF with h | h
        · exact hnt h
        · exact hnd h
      · rfl
    · rw [if_neg hmem]
      have hsF : s ∉ firstSeen ss := fun h => hmem ((mem_firstSeen s ss).mp h)
      by_cases hlen : (firstSeen ss).length < 2
      · have htake : (firstSeen ss).take 2 = firstSeen ss :=
          List.take_of_length_le (by omega)
        have hdrop : (firstSeen ss).drop 2 = [] :=
          List.drop_eq_nil_of_le (by omega)
        have hlen2 : (firstSeen ss ++ [s]).length ≤ 2 := by
          simp
          omega
        simp only [classify, htake, hdrop]
        split_ifs with h1 h2
        · rw [List.take_of_length_le hlen2, List.drop_eq_nil_of_le hlen2]
        · exact absurd ⟨hsF, hlen⟩ h1
        · exact absurd ⟨hsF, hlen⟩ h1
      · push_neg at hlen
        simp only [classify]
        split_ifs with h1 h2
        · exfalso
          obtain ⟨_, hlt⟩ := h1
          rw [List.length_take] at hlt
          omega
        · rw [List.take_append_eq_append_take, List.drop_append_eq_append_drop]
          have h2a : 2 - (firstSeen ss).length = 0 := by omega
          rw [h2a]
          simp
        · exfalso
          push_neg at h2
          rcases Classical.em (s ∈ (firstSeen ss).take 2) with h | h
          · exact hsF (List.take_subset 2 _ h)
          · exact hsF (List.drop_subset 2 _ (h2 h))

/-- Transcript in which player 1 sends out species Alpha, Beta, Alpha and
Gamma in this order. -/
def abacTranscript : String :=
  "|switch|p1a: a|Alpha|100/100\n|switch|p1b: b|Beta|100/100\n|switch|p1a: a|Alpha|90/100\n|switch|p1c: c|Gamma|100/100"

/-- C1: over any in-order sequence of switch species for one player, the
classification appends to leads exactly the first two distinct species, in
first-seen order, and to bench the remaining distinct species; in
particular for [Alpha, Beta, Alpha, Gamma] the parser produces
leads [Alpha, Beta] and bench [Gamma]. -/
theorem lead_bench_first_seen_classification :
    (∀ ss : List String,
      switchFold ss = ((firstSeen ss).take 2, (firstSeen ss).drop 2))
      ∧ (parse_replay_log abacTranscript).player1.lead_pokemon
        = ["Alpha", "Beta"]
      ∧ (parse_replay_log abacTranscript).player1.back_pokemon = ["Gamma"] :=
  ⟨switchFold_firstSeen, rfl, rfl⟩

/-! ### C9 — totality and skippable lines -/

/-- Minimal field count demanded by the loop of `parse_replay_log` for each
recognized event tag; `none` for an unrecognized tag. -/
def minFields (event : String) : Option Nat :=
  if event = "player" then some 5
  else if event = "uhtml" then some 4
  else if event = "showteam" then some 4
  else if event = "switch" then some 4
  else if event = "detailschange" then some 4
  else if event = "-terastallize" then some 3
  else if event = "win" then some 3
  else none

/-- A protocol line the specification calls skippable: empty after
trimming, not starting with the separator, too few fields overall, an
unrecognized event tag, or fewer fields than its event tag requires. -/
def skippable (raw : String) : Prop :=
  pyStrip raw = ""
    ∨ pyStartsWith (pyStrip raw) "|" = false
    ∨ (pySplit (pyStrip raw) '|').length < 2
    ∨ minFields ((pySplit (pyStrip raw) '|').getD 1 "") = none
    ∨ (pySplit (pyStrip raw) '|').length
        < (minFields ((pySplit (pyStrip raw) '|').getD 1 "")).getD 0

/-- Dispatch on an unrecognized event tag leaves the state unchanged. -/
theorem dispatch_eq_of_unrecognized (st : ParseState) (parts : List String)
    (h : minFields (parts.getD 1 "") = none) : dispatch st parts = st := by
  simp only [dispatch]
  by_cases e1 : parts.getD 1 "" = "player"
  · rw [e1] at h; simp [minFields] at h
  rw [if_neg e1]
  by_cases e2 : parts.getD 1 "" = "uhtml"
  · rw [e2] at h; simp [minFields] at h
  rw [if_neg e2]
  by_cases e3 : parts.getD 1 "" = "showteam"
  · rw [e3] at h; simp [minFields] at h
  rw [if_neg e3]
  by_cases e4 : parts.getD 1 "" = "switch"
  · rw [e4] at h; simp [minFields] at h
  rw [if_neg e4]
  by_cases e5 : parts.getD 1 "" = "detailschange"
  · rw [e5] at h; simp [minFields] at h
  rw [if_neg e5]
  by_cases e6 : parts.getD 1 "" = "-terastallize"
  · rw [e6] at h; simp [minFields] at h
  rw [if_neg e6]
  by_cases e7 : parts.getD 1 "" = "win"
  · rw [e7] at h; simp [minFields] at h
  rw [if_neg e7]

/-- Dispatch on a recognized event tag with fewer fields than it requires
leaves the state unchanged. -/
theorem dispatch_eq_of_short (st : ParseState) (parts : List String)
    (h : parts.length < (minFields (parts.getD 1 "")).getD 0) :
    dispatch st parts = st := by
  simp only [dispatch]
  by_cases e1 : parts.getD 1 "" = "player"
  · rw [e1] at h
    simp [minFields] at h
    rw [if_pos e1, if_neg (by omega)]
  rw [if_neg e1]
  by_cases e2 : parts.getD 1 "" = "uhtml"
  · rw [e2] at h
    simp [minFields] at h
    rw [if_pos e2, if_neg (by omega)]
  rw [if_neg e2]
  by_cases e3 : parts.getD 1 "" = "showteam"
  · rw [e3] at h
    simp [minFields] at h
    rw [if_pos e3, if_neg (by omega)]
  rw [if_neg e3]
  by_cases e4 : parts.getD 1 "" = "switch"
  · rw [e4] at h
    simp [minFields] at h
    rw [if_pos e4, if_neg (by omega)]
  rw [if_neg e4]
  by_cases e5 : parts.getD 1 "" = "detailschange"
  · rw [e5] at h
    simp [minFields] at h
    rw [if_pos e5, if_neg (by omega)]
  rw [if_neg e5]
  by_cases e6 : parts.getD 1 "" = "-terastallize"
  · rw [e6] at h
    simp [minFields] at h
    rw [if_pos e6, if_neg (by omega)]
  rw [if_neg e6]
  by_cases e7 : parts.getD 1 "" = "win"
  · rw [e7] at h
    simp [minFields] at h
    rw [if_pos e7, if_neg (by omega)]
  rw [if_neg e7]

/-- C9: the parser is a total function from text to one record, and a
skippable line has no observable effect: one loop iteration on it leaves
the whole tracker state unchanged, and deleting it from a transcript does
not change the returned record. -/
theorem skippable_line_no_effect (st : ParseState) (raw : String)
    (pre post : List String) (h : skippable raw) :
    step st raw = st
      ∧ parseLinesRecord (pre ++ raw :: post) = parseLinesRecord (pre ++ post)
      := by
  have hall : ∀ s : ParseState, step s raw = s := by
    intro s
    unfold step
    rcases h with h1 | h2 | h3 | h4 | h5
    · simp [h1]
    · by_cases hline : pyStrip raw = ""
      · simp [hline]
      · simp [hline, h2]
    · by_cases hline : pyStrip raw = ""
      · simp [hline]
      · by_cases hsw : pyStartsWith (pyStrip raw) "|" = false
        · simp [hline, hsw]
        · simp only [hline, if_neg hline, hsw, if_false]
          rw [if_neg (by simpa using hsw), if_pos h3]
    · by_cases hline : pyStrip raw = ""
      · simp [hline]
      · by_cases hsw : pyStartsWith (pyStrip raw) "|" = false
        · simp [hline, hsw]
        · simp only [if_neg hline]
          rw [if_neg (by simpa using hsw)]
          by_cases hlen : (pySplit (pyStrip raw) '|').length < 2
          · rw [if_pos hlen]
          · rw [if_neg hlen]
            exact dispatch_eq_of_unrecognized s _ h4
    · by_cases hline : pyStrip raw = ""
      · simp [hline]
      · by_cases hsw : pyStartsWith (pyStrip raw) "|" = false
        · simp [hline, hsw]
        · simp only [if_neg hline]
          rw [if_neg (by simpa using hsw)]
          by_cases hlen : (pySplit (pyStrip raw) '|').length < 2
          · rw [if_pos hlen]
          · rw [if_neg hlen]
            exact dispatch_eq_of_short s _ h5
  refine ⟨hall st, ?_⟩
  unfold parseLinesRecord parseLines
  rw [List.foldl_append, List.foldl_append, List.foldl_cons, hall]

/-- Witness for C9: a line with an unrecognized event tag. -/
theorem skippable_line_no_effect_witness :
    step initState "|unknownevent|x" = initState
      ∧ parseLinesRecord (["|player|p1|Alice|avatar"]
          ++ "|unknownevent|x" :: ["|win|Alice"])
        = parseLinesRecord (["|player|p1|Alice|avatar"] ++ ["|win|Alice"]) :=
  skippable_line_no_effect initState "|unknownevent|x"
    ["|player|p1|Alice|avatar"] ["|win|Alice"]
    (Or.inr (Or.inr (Or.inr (Or.inl (by rfl)))))

/-! ### C5 — terastallize resolution through the nickname binding -/

/-- C5: a `-terastallize` line (at least three fields) for a p1 slot sets
p1's terastallized species to the nickname resolved through p1's current
nickname binding, falling back to the raw nickname when unbound, and
overwrites any previous value (the state `st` is arbitrary, so the prior
`p1_tera` is irrelevant); symmetrically for p2; and a nickname bound by a
prior `switch` resolves to the bound species, never the nickname
literal. -/
theorem terastallize_binding_resolution :
    (∀ (st : ParseState) (raw slot nick : String) (rest : List String),
      pyStrip raw ≠ "" →
      pyStartsWith (pyStrip raw) "|" = true →
      pySplit (pyStrip raw) '|' = "" :: "-terastallize" :: slot :: rest →
      _extract_player (pyStrip slot) = "p1" →
      _extract_nickname (pyStrip slot) = some nick →
      (step st raw).p1_tera
        = some ((List.lookup nick st.nick_p1).getD nick))
      ∧ (∀ (st : ParseState) (raw slot nick : String) (rest : List String),
        pyStrip raw ≠ "" →
        pyStartsWith (pyStrip raw) "|" = true →
        pySplit (pyStrip raw) '|' = "" :: "-terastallize" :: slot :: rest →
        _extract_player (pyStrip slot) = "p2" →
        _extract_nickname (pyStrip slot) = some nick →
        (step st raw).p2_tera
          = some ((List.lookup nick st.nick_p2).getD nick))
      ∧ (parse_replay_log
            "|switch|p1a: Nicky|Pikachu, L50|100/100\n|-terastallize|p1a: Nicky|Electric").player1.terastalized_pokemon
        = some "Pikachu" := by
  refine ⟨?_, ?_, by rfl⟩
  · intro st raw slot nick rest hne hsw hparts hplayer hnick
    simp only [step]
    rw [if_neg hne, if_neg (by rw [hsw]; simp), hparts,
      if_neg (by simp)]
    simp only [dispatch]
    rw [show ("" :: "-terastallize" :: slot :: rest).getD 1 ""
      = "-terastallize" from rfl]
    rw [if_neg (by decide), if_neg (by decide), if_neg (by decide),
      if_neg (by decide), if_neg (by decide), if_pos rfl,
      if_pos (by simp)]
    simp only [handleTera]
    rw [show ("" :: "-terastallize" :: slot :: rest).getD 2 "" = slot
      from rfl]
    rw [hnick, hplayer]
    simp only [if_pos rfl, Option.getD_some]
    cases hl : List.lookup nick st.nick_p1 <;> simp [hl]
  · intro st raw slot nick rest hne hsw hparts hplayer hnick
    simp only [step]
    rw [if_neg hne, if_neg (by rw [hsw]; simp), hparts,
      if_neg (by simp)]
    simp only [dispatch]
    rw [show ("" :: "-terastallize" :: slot :: rest).getD 1 ""
      = "-terastallize" from rfl]
    rw [if_neg (by decide), if_neg (by decide), if_neg (by decide),
      if_neg (by decide), if_neg (by decide), if_pos rfl,
      if_pos (by simp)]
    simp only [handleTera]
    rw [show ("" :: "-terastallize" :: slot :: rest).getD 2 "" = slot
      from rfl]
    rw [hnick, hplayer]
    simp only [if_pos rfl, Option.getD_some]
    rw [if_neg (by decide)]
    cases hl : List.lookup nick st.nick_p2 <;> simp [hl]

/-- State with one p1 binding, for the C5 witness. -/
def teraWitnessState : ParseState :=
  { initState with
      nick_p1 := [("Nicky", "Pikachu")]
      p1_tera := some "Previous" }

/-- Witness for C5: the bound nickname resolves to the bound species and
overwrites the previous tera value. -/
theorem terastallize_binding_resolution_witness :
    (step teraWitnessState "|-terastallize|p1a: Nicky|Electric").p1_tera
      = some ((List.lookup "Nicky" teraWitnessState.nick_p1).getD "Nicky") :=
  terastallize_binding_resolution.1 teraWitnessState
    "|-terastallize|p1a: Nicky|Electric" "p1a: Nicky" "Nicky" ["Electric"]
    (by decide) (by rfl) (by rfl) (by rfl) (by rfl)

/-! ### C6 — winning_player is set by a matching win event only -/

/-- Outcome of the `win` branch of the loop on one raw line from a given
state: `some 1` or `some 2` when the line is a win event whose declared
name matches the corresponding truthy bound username, `none` otherwise
(this mirrors the guard structure of `step`). -/
def winEval (st : ParseState) (raw : String) : Option Nat :=
  let line := pyStrip raw
  if line = "" then none
  else if pyStartsWith line "|" = false then none
  else
    let parts := pySplit line '|'
    if parts.length < 2 then none
    else if parts.getD 1 "" = "win" ∧ 3 ≤ parts.length then
      if st.p1_username.getD "" ≠ ""
          ∧ st.p1_username = some (pyStrip (parts.getD 2 "")) then some 1
      else if st.p2_username.getD "" ≠ ""
          ∧ st.p2_username = some (pyStrip (parts.getD 2 "")) then some 2
      else none
    else none

/-- The declared winner name of a line, defined exactly when the line is a
well-formed `win` event. -/
def declaredWinner (raw : String) : Option String :=
  let line := pyStrip raw
  if line = "" then none
  else if pyStartsWith line "|" = false then none
  else
    let parts := pySplit line '|'
    if parts.length < 2 then none
    else if parts.getD 1 "" = "win" ∧ 3 ≤ parts.length then
      some (pyStrip (parts.getD 2 ""))
    else none

/-- Preservation of winner and usernames by the non-win handlers. -/
theorem handlePlayer_winner (st : ParseState) (parts : List String) :
    (handlePlayer st parts).winner = st.winner := by
  simp only [handlePlayer]
  split_ifs <;> rfl

theorem handleUhtml_pres (st : ParseState) (parts : List String) :
    (handleUhtml st parts).winner = st.winner
      ∧ (handleUhtml st parts).p1_username = st.p1_username
      ∧ (handleUhtml st parts).p2_username = st.p2_username := by
  simp only [handleUhtml]
  split_ifs with h
  · exact ⟨rfl, rfl, rfl⟩
  · cases findGameNumber (pyJoin '|' (parts.drop 3)) <;>
      cases findBo3Id (pyJoin '|' (parts.drop 3)) <;>
      exact ⟨rfl, rfl, rfl⟩

theorem handleShowteam_pres (st : ParseState) (parts : List String) :
    (handleShowteam st parts).winner = st.winner
      ∧ (handleShowteam st parts).p1_username = st.p1_username
      ∧ (handleShowteam st parts).p2_username = st.p2_username := by
  simp only [handleShowteam]
  split_ifs <;> exact ⟨rfl, rfl, rfl⟩

theorem bindNickname_pres (st : ParseState) (player : String)
    (nickname : Option String) (species : String) :
    (bindNickname st player nickname species).winner = st.winner
      ∧ (bindNickname st player nickname species).p1_username
        = st.p1_username
      ∧ (bindNickname st player nickname species).p2_username
        = st.p2_username := by
  cases nickname with
  | none => exact ⟨rfl, rfl, rfl⟩
  | some n =>
    simp only [bindNickname]
    split_ifs <;> exact ⟨rfl, rfl, rfl⟩

theorem handleSwitch_pres (st : ParseState) (parts : List String) :
    (handleSwitch st parts).winner = st.winner
      ∧ (handleSwitch st parts).p1_username = st.p1_username
      ∧ (handleSwitch st parts).p2_username = st.p2_username := by
  simp only [handleSwitch]
  obtain ⟨h1, h2, h3⟩ := bindNickname_pres st
    (_extract_player (pyStrip (parts.getD 2 "")))
    (_extract_nickname (pyStrip (parts.getD 2 "")))
    (_normalize_species
      (_extract_species_from_details (pyStrip (parts.getD 3 ""))))
  split_ifs <;> exact ⟨h1, h2, h3⟩

theorem handleDetailschange_pres (st : ParseState) (parts : List String) :
    (handleDetailschange st parts).winner = st.winner
      ∧ (handleDetailschange st parts).p1_username = st.p1_username
      ∧ (handleDetailschange st parts).p2_username = st.p2_username := by
  simp only [handleDetailschange]
  exact bindNickname_pres st _ _ _

theorem handleTera_pres (st : ParseState) (parts : List String) :
    (handleTera st parts).winner = st.winner
      ∧ (handleTera st parts).p1_username = st.p1_username
      ∧ (handleTera st parts).p2_username = st.p2_username := by
  simp only [handleTera]
  split_ifs <;> exact ⟨rfl, rfl, rfl⟩

theorem handleWin_usernames (st : ParseState) (parts : List String) :
    (handleWin st parts).p1_username = st.p1_username
      ∧ (handleWin st parts).p2_username = st.p2_username := by
  simp only [handleWin]
  split_ifs <;> exact ⟨rfl, rfl⟩

/-- The winner computed by `handleWin`. -/
theorem handleWin_winner (st : ParseState) (parts : List String) :
    (handleWin st parts).winner
      = if st.p1_username.getD "" ≠ ""
            ∧ st.p1_username = some (pyStrip (parts.getD 2 "")) then some 1
        else if st.p2_username.getD "" ≠ ""
            ∧ st.p2_username = some (pyStrip (parts.getD 2 "")) then some 2
        else st.winner := by
  simp only [handleWin]
  split_ifs <;> rfl

/-- The winner after one dispatch: only a well-formed `win` event with a
matching truthy username changes it. -/
theorem dispatch_winner (st : ParseState) (parts : List String) :
    (dispatch st parts).winner
      = if parts.getD 1 "" = "win" ∧ 3 ≤ parts.length then
          (if st.p1_username.getD "" ≠ ""
              ∧ st.p1_username = some (pyStrip (parts.getD 2 "")) then some 1
          else if st.p2_username.getD "" ≠ ""
              ∧ st.p2_username = some (pyStrip (parts.getD 2 "")) then some 2
          else st.winner)
        else st.winner := by
  simp only [dispatch]
  by_cases e1 : parts.getD 1 "" = "player"
  · have hnw : ¬(parts.getD 1 "" = "win" ∧ 3 ≤ parts.length) := by
      rintro ⟨hw, _⟩
      rw [e1] at hw
      exact absurd hw (by decide)
    rw [if_pos e1, if_neg hnw]
    split_ifs
    · exact handlePlayer_winner st parts
    · rfl
  rw [if_neg e1]
  by_cases e2 : parts.getD 1 "" = "uhtml"
  · have hnw : ¬(parts.getD 1 "" = "win" ∧ 3 ≤ parts.length) := by
      rintro ⟨hw, _⟩
      rw [e2] at hw
      exact absurd hw (by decide)
    rw [if_pos e2, if_neg hnw]
    split_ifs
    · exact (handleUhtml_pres st parts).1
    · rfl
  rw [if_neg e2]
  by_cases e3 : parts.getD 1 "" = "showteam"
  · have hnw : ¬(parts.getD 1 "" = "win" ∧ 3 ≤ parts.length) := by
      rintro ⟨hw, _⟩
      rw [e3] at hw
      exact absurd hw (by decide)
    rw [if_pos e3, if_neg hnw]
    split_ifs
    · exact (handleShowteam_pres st parts).1
    · rfl
  rw [if_neg e3]
  by_cases e4 : parts.getD 1 "" = "switch"
  · have hnw : ¬(parts.getD 1 "" = "win" ∧ 3 ≤ parts.length) := by
      rintro ⟨hw, _⟩
      rw [e4] at hw
      exact absurd hw (by decide)
    rw [if_pos e4, if_neg hnw]
    split_ifs
    · exact (handleSwitch_pres st parts).1
    · rfl
  rw [if_neg e4]
  by_cases e5 : parts.getD 1 "" = "detailschange"
  · have hnw : ¬(parts.getD 1 "" = "win" ∧ 3 ≤ parts.length) := by
      rintro ⟨hw, _⟩
      rw [e5] at hw
      exact absurd hw (by decide)
    rw [if_pos e5, if_neg hnw]
    split_ifs
    · exact (handleDetailschange_pres st parts).1
    · rfl
  rw [if_neg e5]
  by_cases e6 : parts.getD 1 "" = "-terastallize"
  · have hnw : ¬(parts.getD 1 "" = "win" ∧ 3 ≤ parts.length) := by
      rintro ⟨hw, _⟩
      rw [e6] at hw
      exact absurd hw (by decide)
    rw [if_pos e6, if_neg hnw]
    split_ifs
    · exact (handleTera_pres st parts).1
    · rfl
  rw [if_neg e6]
  by_cases e7 : parts.getD 1 "" = "win"
  · rw [if_pos e7]
    by_cases hlen : 3 ≤ parts.length
    · rw [if_pos hlen, if_pos ⟨e7, hlen⟩]
      exact handleWin_winner st parts
    · have hnw : ¬(parts.getD 1 "" = "win" ∧ 3 ≤ parts.length) := by
        rintro ⟨_, hl⟩
        exact hlen hl
      rw [if_neg hlen, if_neg hnw]
  · have hnw : ¬(parts.getD 1 "" = "win" ∧ 3 ≤ parts.length) := by
      rintro ⟨hw, _⟩
      exact e7 hw
    rw [if_neg e7, if_neg hnw]

/-- Usernames are only changed by a dispatch on the `player` tag. -/
theorem dispatch_usernames (st : ParseState) (parts : List String)
    (h : parts.getD 1 "" ≠ "player") :
    (dispatch st parts).p1_username = st.p1_username
      ∧ (dispatch st parts).p2_username = st.p2_username := by
  simp only [dispatch]
  rw [if_neg h]
  by_cases e2 : parts.getD 1 "" = "uhtml"
  · rw [if_pos e2]
    split_ifs
    · exact ⟨(handleUhtml_pres st parts).2.1, (handleUhtml_pres st parts).2.2⟩
    · exact ⟨rfl, rfl⟩
  rw [if_neg e2]
  by_cases e3 : parts.getD 1 "" = "showteam"
  · rw [if_pos e3]
    split_ifs
    · exact ⟨(handleShowteam_pres st parts).2.1,
        (handleShowteam_pres st parts).2.2⟩
    · exact ⟨rfl, rfl⟩
  rw [if_neg e3]
  by_cases e4 : parts.getD 1 "" = "switch"
  · rw [if_pos e4]
    split_ifs
    · exact ⟨(handleSwitch_pres st parts).2.1,
        (handleSwitch_pres st parts).2.2⟩
    · exact ⟨rfl, rfl⟩
  rw [if_neg e4]
  by_cases e5 : parts.getD 1 "" = "detailschange"
  · rw [if_pos e5]
    split_ifs
    · exact ⟨(handleDetailschange_pres st parts).2.1,
        (handleDetailschange_pres st parts).2.2⟩
    · exact ⟨rfl, rfl⟩
  rw [if_neg e5]
  by_cases e6 : parts.getD 1 "" = "-terastallize"
  · rw [if_pos e6]
    split_ifs
    · exact ⟨(handleTera_pres st parts).2.1, (handleTera_pres st parts).2.2⟩
    · exact ⟨rfl, rfl⟩
  rw [if_neg e6]
  by_cases e7 : parts.getD 1 "" = "win"
  · rw [if_pos e7]
    split_ifs
    · exact handleWin_usernames st parts
    · exact ⟨rfl, rfl⟩
  rw [if_neg e7]
  exact ⟨rfl, rfl⟩

/-- One loop iteration changes the winner exactly as `winEval` says. -/
theorem step_winner_eq (st : ParseState) (raw : String) :
    (step st raw).winner
      = match winEval st raw with
        | some k => some k
        | none => st.winner := by
  unfold step winEval
  by_cases h1 : pyStrip raw = ""
  · simp [h1]
  simp only [if_neg h1]
  by_cases h2 : pyStartsWith (pyStrip raw) "|" = false
  · simp [h2]
  simp only [if_neg h2]
  by_cases h3 : (pySplit (pyStrip raw) '|').length < 2
  · simp [h3]
  simp only [if_neg h3]
  rw [dispatch_winner]
  by_cases hc : (pySplit (pyStrip raw) '|').getD 1 "" = "win"
      ∧ 3 ≤ (pySplit (pyStrip raw) '|').length
  · rw [if_pos hc, if_pos hc]
    split_ifs <;> rfl
  · rw [if_neg hc, if_neg hc]

/-- Splitting a snoc list around one element. -/
theorem snoc_split {α : Type} {xs ys ls : List α} {m l : α}
    (h : xs ++ m :: ys = ls ++ [l]) :
    (xs = ls ∧ m = l ∧ ys = [])
      ∨ ∃ ys1, ys = ys1 ++ [l] ∧ ls = xs ++ m :: ys1 := by
  induction ys using List.reverseRecOn with
  | nil =>
    left
    have hlen : xs.length = ls.length := by
      have := congrArg List.length h
      simp at this
      omega
    obtain ⟨h1, h2⟩ := List.append_inj h hlen
    have h3 : m = l := by simpa using h2
    exact ⟨h1, h3, rfl⟩
  | append_singleton ys1 y _ =>
    right
    have h2 : (xs ++ m :: ys1) ++ [y] = ls ++ [l] := by simpa using h
    have hlen : (xs ++ m :: ys1).length = ls.length := by
      have := congrArg List.length h2
      simp at this ⊢
      omega
    obtain ⟨h3, h4⟩ := List.append_inj h2 hlen
    have hy : y = l := by simpa using h4
    exact ⟨ys1, by rw [hy], h3.symm⟩

/-- Folding one more line. -/
theorem parseLines_append_singleton (ls : List String) (l : String) :
    parseLines (ls ++ [l]) = step (parseLines ls) l := by
  simp [parseLines, List.foldl_append]

/-- The winner is defined at the end of the fold exactly when some line,
evaluated as a win event against the state accumulated over the lines
before it, produces a winner. -/
theorem parseLines_winner_trace (ls : List String) :
    (parseLines ls).winner ≠ none
      ↔ ∃ xs l ys, ls = xs ++ l :: ys
          ∧ winEval (parseLines xs) l ≠ none := by
  induction ls using List.reverseRecOn with
  | nil =>
    constructor
    · intro h
      exact absurd rfl h
    · rintro ⟨xs, l, ys, heq, _⟩
      exact absurd heq.symm (by simp)
  | append_singleton ls l ih =>
    rw [parseLines_append_singleton]
    cases hw : winEval (parseLines ls) l with
    | some k =>
      have hstep : (step (parseLines ls) l).winner = some k := by
        rw [step_winner_eq, hw]
      constructor
      · intro _
        exact ⟨ls, l, [], rfl, by rw [hw]; simp⟩
      · intro _
        rw [hstep]
        simp
    | none =>
      have hstep : (step (parseLines ls) l).winner = (parseLines ls).winner := by
        rw [step_winner_eq, hw]
      rw [hstep, ih]
      constructor
      · rintro ⟨xs, m, ys, rfl, hm⟩
        exact ⟨xs, m, ys ++ [l], by simp, hm⟩
      · rintro ⟨xs, m, ys, heq, hm⟩
        rcases snoc_split heq.symm with ⟨rfl, rfl, rfl⟩ | ⟨ys1, rfl, rfl⟩
        · exact absurd hw hm
        · exact ⟨xs, m, ys1, rfl, hm⟩

/-- A defined `winEval` outcome is 1 or 2. -/
theorem winEval_vals (st : ParseState) (raw : String) (k : Nat)
    (h : winEval st raw = some k) : k = 1 ∨ k = 2 := by
  simp only [winEval] at h
  split_ifs at h <;> simp_all

/-- The winner accumulated by the fold is 1 or 2 when defined. -/
theorem parseLines_winner_vals (ls : List String) :
    ∀ k, (parseLines ls).winner = some k → k = 1 ∨ k = 2 := by
  induction ls using List.reverseRecOn with
  | nil =>
    intro k h
    simp [parseLines, initState] at h
  | append_singleton ls l ih =>
    intro k h
    rw [parseLines_append_singleton, step_winner_eq] at h
    cases hw : winEval (parseLines ls) l with
    | some k2 =>
      rw [hw] at h
      simp at h
      subst h
      exact winEval_vals _ _ _ hw
    | none =>
      rw [hw] at h
      exact ih k h

/-- `winEval` is defined exactly when the line is a well-formed `win`
event whose declared name equals a bound, non-empty username. -/
theorem winEval_iff_declared (st : ParseState) (raw : String) :
    winEval st raw ≠ none
      ↔ ∃ u, declaredWinner raw = some u ∧ u ≠ ""
          ∧ (st.p1_username = some u ∨ st.p2_username = some u) := by
  simp only [winEval, declaredWinner]
  by_cases h1 : pyStrip raw = ""
  · simp [h1]
  rw [if_neg h1, if_neg h1]
  by_cases h2 : pyStartsWith (pyStrip raw) "|" = false
  · simp [h2]
  rw [if_neg h2, if_neg h2]
  by_cases h3 : (pySplit (pyStrip raw) '|').length < 2
  · rw [if_pos h3, if_pos h3]
    simp
  rw [if_neg h3, if_neg h3]
  by_cases h4 : (pySplit (pyStrip raw) '|').getD 1 "" = "win"
      ∧ 3 ≤ (pySplit (pyStrip raw) '|').length
  · rw [if_pos h4, if_pos h4]
    constructor
    · intro h
      by_cases hA : st.p1_username.getD "" ≠ ""
          ∧ st.p1_username
            = some (pyStrip ((pySplit (pyStrip raw) '|').getD 2 ""))
      · refine ⟨pyStrip ((pySplit (pyStrip raw) '|').getD 2 ""), rfl, ?_,
          Or.inl hA.2⟩
        intro hu
        rw [hu] at hA
        rw [hA.2] at hA
        simp at hA
      · rw [if_neg hA] at h
        by_cases hB : st.p2_username.getD "" ≠ ""
            ∧ st.p2_username
              = some (pyStrip ((pySplit (pyStrip raw) '|').getD 2 ""))
        · refine ⟨pyStrip ((pySplit (pyStrip raw) '|').getD 2 ""), rfl, ?_,
            Or.inr hB.2⟩
          intro hu
          rw [hu] at hB
          rw [hB.2] at hB
          simp at hB
        · rw [if_neg hB] at h
          exact absurd rfl h
    · rintro ⟨u, hu, hune, hside⟩
      have hname : pyStrip ((pySplit (pyStrip raw) '|').getD 2 "") = u := by
        injection hu
      rcases hside with hp1 | hp2
      · have hA : st.p1_username.getD "" ≠ ""
            ∧ st.p1_username
              = some (pyStrip ((pySplit (pyStrip raw) '|').getD 2 "")) := by
          rw [hname, hp1]
          simpa using hune
        rw [if_pos hA]
        simp
      · by_cases hA : st.p1_username.getD "" ≠ ""
            ∧ st.p1_username
              = some (pyStrip ((pySplit (pyStrip raw) '|').getD 2 ""))
        · rw [if_pos hA]
          simp
        · have hB : st.p2_username.getD "" ≠ ""
              ∧ st.p2_username
                = some (pyStrip ((pySplit (pyStrip raw) '|').getD 2 "")) := by
            rw [hname, hp2]
            simpa using hune
          rw [if_neg hA, if_pos hB]
          simp
  · rw [if_neg h4, if_neg h4]
    simp

/-- Usernames can only be (re)bound by a `player` line. -/
theorem step_usernames_provenance (st : ParseState) (raw : String) :
    ((step st raw).p1_username = st.p1_username
        ∧ (step st raw).p2_username = st.p2_username)
      ∨ (pySplit (pyStrip raw) '|').getD 1 "" = "player" := by
  simp only [step]
  by_cases h1 : pyStrip raw = ""
  · left
    simp [h1]
  rw [if_neg h1]
  by_cases h2 : pyStartsWith (pyStrip raw) "|" = false
  · left
    rw [if_pos h2]
    exact ⟨rfl, rfl⟩
  rw [if_neg h2]
  by_cases h3 : (pySplit (pyStrip raw) '|').length < 2
  · left
    rw [if_pos h3]
    exact ⟨rfl, rfl⟩
  rw [if_neg h3]
  by_cases hp : (pySplit (pyStrip raw) '|').getD 1 "" = "player"
  · right
    exact hp
  · left
    exact dispatch_usernames st _ hp

/-- C6: the finalized winning_player is defined (and then equal to 1 or 2)
exactly when some `win` line of the transcript, evaluated against the
state accumulated over the lines before it, declares a winner name equal
to a bound non-empty username; the name matching neither username, or no
win event at all, leaves winning_player undefined; and usernames are bound
only by `player` events. -/
theorem winning_player_characterization (ls : List String) :
    ((parseLinesRecord ls).winning_player ≠ none
        ↔ ∃ xs l ys, ls = xs ++ l :: ys
            ∧ winEval (parseLines xs) l ≠ none)
      ∧ (∀ st raw, winEval st raw ≠ none
        ↔ ∃ u, declaredWinner raw = some u ∧ u ≠ ""
            ∧ (st.p1_username = some u ∨ st.p2_username = some u))
      ∧ (∀ k, (parseLinesRecord ls).winning_player = some k → k = 1 ∨ k = 2)
      ∧ (∀ st raw,
        ((step st raw).p1_username = st.p1_username
            ∧ (step st raw).p2_username = st.p2_username)
          ∨ (pySplit (pyStrip raw) '|').getD 1 "" = "player") :=
  ⟨parseLines_winner_trace ls, winEval_iff_declared,
    parseLines_winner_vals ls, step_usernames_provenance⟩

/-- Witness for C6: a transcript whose win event names the bound p1
username has a defined winner. -/
theorem winning_player_characterization_witness :
    (parseLinesRecord ["|player|p1|Alice|avatar|", "|win|Alice"]).winning_player
      ≠ none :=
  (winning_player_characterization
      ["|player|p1|Alice|avatar|", "|win|Alice"]).1.mpr
    ⟨["|player|p1|Alice|avatar|"], "|win|Alice", [], rfl, by decide⟩
